import Mathlib

/-! Formal model of the tube-bank crossflow correlation module
(ht/conv_tube_bank.py): tabulated tube-row correction lookups, the
Bell-Delaware correction factors, and the Nusselt-number and pressure-drop
correlation functions.

Modelling conventions. Machine floats are modelled as exact rationals;
real-valued power operations use Real.rpow over the reals. The scipy spline
objects (RectBivariateSpline, interp2d, UnivariateSpline), which are fitted
by an external library from the digitized data tables, are modelled as
abstract function parameters: every property proved here holds for an
arbitrary spline evaluation function. Runtime failures of the source
(IndexError from out-of-range list indexing, NameError from an undefined
variable, ZeroDivisionError, ValueError) are modelled by Option: a result
of none means the call raises instead of returning a value. -/

/-- Grimson tube-row correction table for aligned banks; the source comment
states it applies for rows 1 through 9 and it has exactly 9 entries. -/
def Grimson_Nl_aligned : List ℚ :=
  [0.64, 0.8, 0.87, 0.9, 0.92, 0.94, 0.96, 0.98, 0.99]

/-- Grimson tube-row correction table for staggered banks (9 entries). -/
def Grimson_Nl_staggered : List ℚ :=
  [0.68, 0.75, 0.83, 0.89, 0.92, 0.95, 0.97, 0.98, 0.99]

/-- Tube-row correction factor C2 of Nu_Grimison_tube_bank, from the source:
tube_rows is truncated to int; below 10 it is clamped to a minimum of 1 and
the table of the classified arrangement is indexed at position tube_rows
(zero-based, exactly as written in the source); at 10 and above the factor
is 1.0. An out-of-range index is an IndexError, modelled as none. -/
def Grimison_C2 (staggered : Bool) (tube_rows : ℤ) : Option ℚ :=
  if tube_rows < 10 then
    (if staggered then Grimson_Nl_staggered else Grimson_Nl_aligned).get?
      (if tube_rows < 1 then (1 : ℤ) else tube_rows).toNat
  else some 1

/-- Nu_Grimison_tube_bank from the source. The four bivariate spline
interpolants built from the Grimison C1 and m tables are abstract function
parameters. The arrangement is classified from the pitch ratio with the
0.05 tolerance, C1 and m are read from the spline of that arrangement, the
tube-row correction C2 is looked up (none models the IndexError), and the
result is 1.13 * Re^m * Pr^(1/3) * C2 * C1. -/
noncomputable def Nu_Grimison_tube_bank
    (C1_aligned_interp m_aligned_interp C1_staggered_interp m_staggered_interp :
      ℚ → ℚ → ℝ)
    (Re Pr Do : ℚ) (tube_rows : ℤ) (pitch_parallel pitch_normal : ℚ) :
    Option ℝ :=
  let staggered : Bool := decide (|1 - pitch_normal / pitch_parallel| > 0.05)
  let a : ℚ := pitch_normal / Do
  let b : ℚ := pitch_parallel / Do
  let C1 : ℝ := if staggered then C1_staggered_interp b a else C1_aligned_interp b a
  let m : ℝ := if staggered then m_staggered_interp b a else m_aligned_interp b a
  match Grimison_C2 staggered tube_rows with
  | none => none
  | some C2 =>
      some (1.13 * (Re : ℝ) ^ m * (Pr : ℝ) ^ ((1 : ℝ) / 3) * (C2 : ℝ) * C1)

/-- Zukauskas tube-row correction table, staggered arrangement, Re below
1000 (19 entries, rows 1 through 19). -/
def Zukauskas_Czs_low_Re_staggered : List ℚ :=
  [0.8295, 0.8792, 0.9151, 0.9402, 0.957, 0.9677, 0.9745, 0.9785, 0.9808,
   0.9823, 0.9838, 0.9855, 0.9873, 0.9891, 0.991, 0.9929, 0.9948, 0.9967,
   0.9987]

/-- Zukauskas tube-row correction table, staggered arrangement, Re at or
above 1000 (19 entries). -/
def Zukauskas_Czs_high_Re_staggered : List ℚ :=
  [0.6273, 0.7689, 0.8473, 0.8942, 0.9254, 0.945, 0.957, 0.9652, 0.9716,
   0.9765, 0.9803, 0.9834, 0.9862, 0.989, 0.9918, 0.9943, 0.9965, 0.998,
   0.9986]

/-- Zukauskas tube-row correction table, inline arrangement (19 entries). -/
def Zukauskas_Czs_inline : List ℚ :=
  [0.6768, 0.8089, 0.8687, 0.9054, 0.9303, 0.9465, 0.9569, 0.9647, 0.9712,
   0.9766, 0.9811, 0.9847, 0.9877, 0.99, 0.992, 0.9937, 0.9953, 0.9969,
   0.9986]

/-- Zukauskas_tube_row_correction from the source: the row count is clamped
to a minimum of 1; for a clamped count of at most 19 the table of the
configuration (staggered low-Re for Re below 1000, staggered high-Re
otherwise, or inline) is indexed at tube_rows - 1; above 19 the factor is
1.0. The index is always in range, so List.getD is exact. -/
def Zukauskas_tube_row_correction (tube_rows : ℤ) (staggered : Bool) (Re : ℚ) : ℚ :=
  let tr : ℤ := if tube_rows < 1 then 1 else tube_rows
  if staggered then
    if tr ≤ 19 then
      (if Re < 1000 then Zukauskas_Czs_low_Re_staggered
       else Zukauskas_Czs_high_Re_staggered).getD (tr - 1).toNat 0
    else 1
  else
    if tr ≤ 19 then Zukauskas_Czs_inline.getD (tr - 1).toNat 0
    else 1

/-- Nu_Zukauskas_Bejan from the source: the arrangement is classified from
the pitch ratio with the 0.05 tolerance; the coefficients c and m and the
pitch-ratio factor f are selected from the Reynolds-number band; the
Nusselt number is c * Re^m * Pr^0.36 * f, multiplied by (Pr/Pr_wall)^0.25
when Pr_wall is supplied, and finally by the tube-row correction. -/
noncomputable def Nu_Zukauskas_Bejan (Re Pr : ℚ) (tube_rows : ℤ)
    (pitch_parallel pitch_normal : ℚ) (Pr_wall : Option ℚ) : ℝ :=
  let staggered : Bool := decide (|1 - pitch_normal / pitch_parallel| > 0.05)
  let cmf : ℝ × ℝ × ℝ :=
    if !staggered then
      if Re < 100 then (0.9, 0.4, 1)
      else if Re < 1000 then (0.52, 0.05, 1)
      else if Re < 2e5 then (0.27, 0.63, 1)
      else (0.033, 0.8, 1)
    else
      if Re < 500 then (1.04, 0.4, 1)
      else if Re < 1000 then (0.71, 0.5, 1)
      else if Re < 2e5 then
        (0.35, 0.6, ((pitch_normal / pitch_parallel : ℚ) : ℝ) ^ (0.2 : ℝ))
      else (0.031, 0.8, ((pitch_normal / pitch_parallel : ℚ) : ℝ) ^ (0.2 : ℝ))
  let Nu : ℝ := cmf.1 * (Re : ℝ) ^ cmf.2.1 * (Pr : ℝ) ^ (0.36 : ℝ) * cmf.2.2
  let Nu : ℝ :=
    match Pr_wall with
    | some pw => Nu * ((Pr : ℝ) / (pw : ℝ)) ^ (0.25 : ℝ)
    | none => Nu
  let Cn : ℚ := Zukauskas_tube_row_correction tube_rows staggered Re
  Nu * (Cn : ℝ)

/-- ESDU 73031 tube-row correction table, inline arrangement, for row
counts 3 through 9 (7 entries). -/
def ESDU_73031_F2_inline : List ℚ :=
  [0.8479, 0.8957, 0.9306, 0.9551, 0.9724, 0.9839, 0.9902]

/-- ESDU 73031 tube-row correction table, staggered arrangement, for row
counts 3 through 9 (7 entries). -/
def ESDU_73031_F2_staggered : List ℚ :=
  [0.8593, 0.8984, 0.9268, 0.9482, 0.965, 0.9777, 0.9868]

/-- ESDU_tube_row_correction from the source: under the method name Hewitt,
row counts of at most 2 read the first table entry, counts of at least 10
give 1.0, and counts 3 through 9 index the table of the arrangement at
tube_rows - 3. For any other method name the source falls through without
a return statement, yielding no defined result (modelled as none). The Re
argument is accepted but never used. -/
def ESDU_tube_row_correction (tube_rows : ℤ) (staggered : Bool) (Re : ℚ)
    (method : String) : Option ℚ :=
  if method = "Hewitt" then
    if staggered then
      if tube_rows ≤ 2 then ESDU_73031_F2_staggered.get? 0
      else if 10 ≤ tube_rows then some 1
      else ESDU_73031_F2_staggered.get? (tube_rows - 3).toNat
    else
      if tube_rows ≤ 2 then ESDU_73031_F2_inline.get? 0
      else if 10 ≤ tube_rows then some 1
      else ESDU_73031_F2_inline.get? (tube_rows - 3).toNat
  else none

/-- Largest x value of the digitized Bell baffle leakage chart; the derived
x is clamped to it before the spline lookup. -/
def Bell_baffle_leakage_x_max : ℚ := 0.743614

/-- baffle_leakage_Bell from the source, with the fitted bivariate spline
as an abstract parameter. x = (Ssb+Stb)/Sm is computed (ZeroDivisionError,
modelled as none, when Sm = 0) and clamped to the fitted maximum; then
y = Ssb/(Ssb+Stb) is computed (none when Ssb+Stb = 0) and validated to lie
in [0,1], a ValueError (none) being raised otherwise; the spline value is
clamped above by 1.0 and returned. -/
def baffle_leakage_Bell (spline : ℚ → ℚ → ℚ) (Ssb Stb Sm : ℚ) : Option ℚ :=
  if Sm = 0 then none
  else
    let x0 : ℚ := (Ssb + Stb) / Sm
    let x : ℚ := if x0 > Bell_baffle_leakage_x_max then Bell_baffle_leakage_x_max else x0
    if Ssb + Stb = 0 then none
    else
      let y : ℚ := Ssb / (Ssb + Stb)
      if y > 1 ∨ y < 0 then none
      else some (min (spline x y) 1)

/-- Largest x value of the digitized Bell bundle bypass chart; the bypass
area fraction is clamped to it before the spline lookup. -/
def Bell_bundle_bypass_x_max : ℚ := 0.69532

/-- bundle_bypassing_Bell from the source, with the two fitted bivariate
splines (laminar and turbulent) as abstract parameters. z is the
seal-strip density seal_strips/crossflow_rows (ZeroDivisionError, modelled
as none, when crossflow_rows = 0); the bypass area fraction is clamped to
the fitted maximum; the selected spline value is clamped above by 1.0. -/
def bundle_bypassing_Bell (splineLow splineHigh : ℚ → ℚ → ℚ)
    (bypass_area_fraction : ℚ) (seal_strips crossflow_rows : ℤ)
    (laminar : Bool) : Option ℚ :=
  if crossflow_rows = 0 then none
  else
    let z : ℚ := (seal_strips : ℚ) / (crossflow_rows : ℚ)
    let obj : ℚ → ℚ → ℚ := if laminar then splineLow else splineHigh
    let x : ℚ :=
      if bypass_area_fraction > Bell_bundle_bypass_x_max then Bell_bundle_bypass_x_max
      else bypass_area_fraction
    some (min (obj x z) 1)

/-- Tube-row correction factor fn of Nu_HEDH_tube_bank. For tube_rows
below 10 the source computes fn = (1.0 + (n - 1.0))/tube_rows where the
name n is not defined in any enclosing scope, so evaluation raises
NameError, modelled as none; for tube_rows at or above 10 the source sets
fn = 1.0. -/
def HEDH_fn (tube_rows : ℤ) : Option ℝ :=
  if tube_rows < 10 then none else some 1

/-- Voidage (packing fraction) of Nu_HEDH_tube_bank, from the source: for
b at least 1 it is 1 - pi/(4a), otherwise 1 - pi/(4ab). Because pi is
irrational and a and b are machine numbers (rationals), the voidage is
provably never zero (HEDH_voidage_ne_zero below). -/
noncomputable def HEDH_voidage (a b : ℚ) : ℝ :=
  if 1 ≤ b then 1 - Real.pi / (4 * (a : ℝ)) else 1 - Real.pi / (4 * (a : ℝ) * (b : ℝ))

/-- Denominator of the turbulent Nusselt estimate of Nu_HEDH_tube_bank,
from the source: 1 + 2.443 * Re^-0.1 * (Pr^(2/3) - 1). -/
noncomputable def HEDH_turb_den (Re2 : ℝ) (Pr : ℚ) : ℝ :=
  1 + 2.443 * Re2 ^ (-0.1 : ℝ) * ((Pr : ℝ) ^ ((2 : ℝ) / 3) - 1)

open scoped Classical in
/-- Nu_HEDH_tube_bank from the source: pitch ratios a and b, the voidage
from the b threshold at 1, Reynolds number divided by the voidage, the
laminar and turbulent Nusselt estimates combined by root-sum-square, the
arrangement factor fA, and the tube-row factor fn (HEDH_fn, whose NameError
for fewer than 10 rows propagates as none). Every division of the source
that raises ZeroDivisionError on a zero denominator is modelled by a guard
returning none, in source evaluation order: the pitch ratio in the
arrangement classification (pitch_parallel = 0), a and b (Do = 0), the
voidage denominator 4a or 4ab, the Reynolds rescale (voidage = 0, never
reachable for rational pitches), the negative power Re2^-0.1 at Re2 = 0,
the turbulent-estimate denominator, and the inline arrangement-factor
denominator (b/a + 0.7)^2. -/
noncomputable def Nu_HEDH_tube_bank (Re Pr Do : ℚ) (tube_rows : ℤ)
    (pitch_parallel pitch_normal : ℚ) : Option ℝ :=
  if pitch_parallel = 0 then none
  else
    let staggered : Bool := decide (|1 - pitch_normal / pitch_parallel| > 0.05)
    if Do = 0 then none
    else
      let a : ℚ := pitch_normal / Do
      let b : ℚ := pitch_parallel / Do
      if (if 1 ≤ b then 4 * a = 0 else 4 * a * b = 0) then none
      else
        let voidage : ℝ := HEDH_voidage a b
        if voidage = 0 then none
        else
          let Re2 : ℝ := (Re : ℝ) / voidage
          let Nu_laminar : ℝ := 0.664 * Re2 ^ (0.5 : ℝ) * (Pr : ℝ) ^ ((1 : ℝ) / 3)
          if Re2 = 0 then none
          else
            if HEDH_turb_den Re2 Pr = 0 then none
            else
              let Nu_turbulent : ℝ :=
                0.037 * Re2 ^ (0.8 : ℝ) * (Pr : ℝ) / HEDH_turb_den Re2 Pr
              let Nu : ℝ :=
                0.3 + (Nu_laminar * Nu_laminar + Nu_turbulent * Nu_turbulent) ^ (0.5 : ℝ)
              if staggered = false ∧ ((b : ℝ) / (a : ℝ) + 0.7) ^ 2 = 0 then none
              else
                let fA : ℝ :=
                  if !staggered then
                    1 + 0.7 / voidage ^ (1.5 : ℝ) * ((b : ℝ) / (a : ℝ) - 0.3) /
                      ((b : ℝ) / (a : ℝ) + 0.7) ^ 2
                  else 1 + 2 / (3 * (b : ℝ))
                match HEDH_fn tube_rows with
                | none => none
                | some fn => some (Nu * fn * fA)

/-- dP_Kern from the source, with the fitted univariate friction-factor
spline as an abstract parameter Kf. The crossflow area Ss, equivalent
diameter De, velocity Vs and Reynolds number are computed, the friction
factor is read from the spline, and the pressure drop is returned; when a
truthy (nonzero) wall viscosity mu_w is supplied, the denominator carries
the extra factor (mu/mu_w)^0.14; a supplied mu_w equal to zero is falsy in
the source and takes the uncorrected branch. -/
noncomputable def dP_Kern (Kf : ℝ → ℝ)
    (m rho mu DShell LSpacing pitch Do NBaffles : ℝ) (mu_w : Option ℝ) : ℝ :=
  let Ss : ℝ := DShell * (pitch - Do) * LSpacing / pitch
  let De : ℝ := 4 * (pitch ^ 2 - Real.pi * Do ^ 2 / 4) / Real.pi / Do
  let Vs : ℝ := m / Ss / rho
  let Re : ℝ := rho * De * Vs / mu
  let f : ℝ := Kf Re
  match mu_w with
  | some w =>
      if w = 0 then f * (Vs * rho) ^ 2 * DShell * (NBaffles + 1) / (2 * rho * De)
      else f * (Vs * rho) ^ 2 * DShell * (NBaffles + 1) /
        (2 * rho * De * (mu / w) ^ (0.14 : ℝ))
  | none => f * (Vs * rho) ^ 2 * DShell * (NBaffles + 1) / (2 * rho * De)

/-- C1: the claim states that for every tube_rows from 1 through 9 the
Grimison tube-row correction is read in-bounds from the 9-entry table and
no exception is raised. The code instead indexes the 9-entry table at
position tube_rows, so for tube_rows = 9 the lookup is out of range and
Nu_Grimison_tube_bank raises an IndexError (returns no value), for every
arrangement, geometry and flow input and for arbitrary interpolant
functions. -/
theorem nu_grimison_row_nine_index_error
    (C1a ma C1s ms : ℚ → ℚ → ℝ) (Re Pr Do pp pn : ℚ) :
    Nu_Grimison_tube_bank C1a ma C1s ms Re Pr Do 9 pp pn = none := by
  have h : ∀ st : Bool, Grimison_C2 st 9 = none := by decide
  simp [Nu_Grimison_tube_bank, h]

/-- The HEDH voidage is never zero for machine-number (rational) pitch
ratios: when the denominator 4a or 4ab vanishes the source has already
raised before the rescale, the total real division gives 1 - 0 = 1, and
otherwise 1 - pi/q = 0 would make pi equal to the rational q. -/
theorem HEDH_voidage_ne_zero (a b : ℚ) : HEDH_voidage a b ≠ 0 := by
  have key : ∀ q : ℚ, (1 : ℝ) - Real.pi / (q : ℝ) ≠ 0 := by
    intro q hq
    rcases eq_or_ne ((q : ℚ) : ℝ) 0 with h0 | h0
    · rw [h0, div_zero, sub_zero] at hq
      exact one_ne_zero hq
    · have h1 : Real.pi = ((q : ℚ) : ℝ) := by
        field_simp [h0] at hq
        linarith
      exact irrational_pi ⟨q, h1.symm⟩
  unfold HEDH_voidage
  split_ifs
  · have h := key (4 * a)
    push_cast at h
    exact h
  · have h := key (4 * a * b)
    push_cast at h
    exact h

/-- C2 counterexample: the claim as stated asserts that every call with
tube_rows at or above 10 returns a value, but at Re = 0, tube_rows = 10
and valid geometry the source raises ZeroDivisionError while evaluating
the rescaled Reynolds number to the power -0.1 (zero cannot be raised to
a negative power), so the call yields no value. -/
theorem nu_hedh_returns_value_counterexample :
    Nu_HEDH_tube_bank 0 7 (3 / 100) 10 (5 / 100) (5 / 100) = none := by
  simp only [Nu_HEDH_tube_bank]
  split_ifs <;> simp_all

/-- C2 (amended): the row-correction term of Nu_HEDH_tube_bank references
the undefined name n, so every call with tube_rows below 10 yields no
value (the row-correction step raising NameError whenever it is reached);
for tube_rows at or above 10 the row correction is exactly 1.0, and the
call returns a value whenever none of its divisions fails: pitch_parallel,
Do, pitch_normal and Re nonzero, the inline arrangement-factor base
b/a + 0.7 nonzero, and the turbulent-estimate denominator nonzero. -/
theorem nu_hedh_undefined_row_correction (Re Pr Do : ℚ) (tube_rows : ℤ)
    (pp pn : ℚ) :
    (tube_rows < 10 → Nu_HEDH_tube_bank Re Pr Do tube_rows pp pn = none) ∧
    (10 ≤ tube_rows → HEDH_fn tube_rows = some 1) ∧
    (10 ≤ tube_rows → pp ≠ 0 → Do ≠ 0 → pn ≠ 0 → Re ≠ 0 →
      pp / Do / (pn / Do) ≠ -(7 / 10) →
      HEDH_turb_den ((Re : ℝ) / HEDH_voidage (pn / Do) (pp / Do)) Pr ≠ 0 →
      (Nu_HEDH_tube_bank Re Pr Do tube_rows pp pn).isSome = true) := by
  refine ⟨?_, ?_, ?_⟩
  · intro h
    simp only [Nu_HEDH_tube_bank]
    split_ifs <;> simp [HEDH_fn, h]
  · intro h
    have h10 : ¬ tube_rows < 10 := by omega
    simp [HEDH_fn, h10]
  · intro h10 hpp hDo hpn hRe hfA hturb
    have hlt : ¬ tube_rows < 10 := by omega
    have ha : pn / Do ≠ 0 := div_ne_zero hpn hDo
    have hb : pp / Do ≠ 0 := div_ne_zero hpp hDo
    have h3 : ¬ (if 1 ≤ pp / Do then 4 * (pn / Do) = 0
        else 4 * (pn / Do) * (pp / Do) = 0) := by
      split_ifs with hb1
      · exact mul_ne_zero (by norm_num) ha
      · exact mul_ne_zero (mul_ne_zero (by norm_num) ha) hb
    have hv : HEDH_voidage (pn / Do) (pp / Do) ≠ 0 := HEDH_voidage_ne_zero _ _
    have hRe2 : (Re : ℝ) / HEDH_voidage (pn / Do) (pp / Do) ≠ 0 :=
      div_ne_zero (by exact_mod_cast hRe) hv
    have hbase : ((pp / Do : ℚ) : ℝ) / ((pn / Do : ℚ) : ℝ) + 0.7 ≠ 0 := by
      intro h0
      apply hfA
      have hcast : ((pp / Do / (pn / Do) : ℚ) : ℝ) = ((-(7 / 10) : ℚ) : ℝ) := by
        push_cast at h0 ⊢
        linarith
      exact_mod_cast hcast
    have hand : ¬ ((decide (|1 - pn / pp| > 0.05) = false) ∧
        (((pp / Do : ℚ) : ℝ) / ((pn / Do : ℚ) : ℝ) + 0.7) ^ 2 = 0) :=
      fun hc => pow_ne_zero 2 hbase hc.2
    simp only [Nu_HEDH_tube_bank, if_neg hpp, if_neg hDo, if_neg h3, if_neg hv,
      if_neg hRe2, if_neg hturb, if_neg hand]
    have hfn : HEDH_fn tube_rows = some 1 := by simp [HEDH_fn, hlt]
    rw [hfn]
    rfl

/-- Witness for C2: a 5-row call yields no value; a 10-row call at
Re = 10000, Pr = 1, Do = 0.03 and pitches 0.05 satisfies every division
hypothesis and returns a value, with row correction exactly 1. -/
theorem nu_hedh_undefined_row_correction_witness :
    Nu_HEDH_tube_bank 10000 1 (3 / 100) 5 (5 / 100) (5 / 100) = none ∧
    HEDH_fn 10 = some 1 ∧
    (Nu_HEDH_tube_bank 10000 1 (3 / 100) 10 (5 / 100) (5 / 100)).isSome = true :=
  ⟨(nu_hedh_undefined_row_correction 10000 1 (3 / 100) 5 (5 / 100) (5 / 100)).1
      (by decide),
   (nu_hedh_undefined_row_correction 10000 1 (3 / 100) 10 (5 / 100) (5 / 100)).2.1
      (by decide),
   (nu_hedh_undefined_row_correction 10000 1 (3 / 100) 10 (5 / 100) (5 / 100)).2.2
      (by decide) (by norm_num) (by norm_num) (by norm_num) (by norm_num)
      (by norm_num) (by simp [HEDH_turb_den])⟩

/-- C9: for every method argument other than Hewitt,
ESDU_tube_row_correction returns no value, for all row counts,
arrangements and Reynolds numbers. -/
theorem esdu_unknown_method_no_result (method : String)
    (h : method ≠ "Hewitt") (N : ℤ) (st : Bool) (Re : ℚ) :
    ESDU_tube_row_correction N st Re method = none := by
  simp [ESDU_tube_row_correction, h]

/-- Witness for C9 at the unrecognized method name Zukauskas. -/
theorem esdu_unknown_method_no_result_witness :
    ESDU_tube_row_correction 4 true 3000 ("Zukauskas") = none :=
  esdu_unknown_method_no_result ("Zukauskas") (by decide) 4 true 3000

/-- C10: the result of ESDU_tube_row_correction does not depend on its Re
argument: any two calls differing only in Re agree, for every row count,
arrangement and method. -/
theorem esdu_result_independent_of_Re (N : ℤ) (st : Bool) (method : String)
    (Re Re' : ℚ) :
    ESDU_tube_row_correction N st Re method =
      ESDU_tube_row_correction N st Re' method := rfl

/-- C3: under a nonzero crossflow area Sm, baffle_leakage_Bell fails with a
reported error exactly when the derived split fraction Ssb/(Ssb+Stb) is not
a well-defined value in [0,1] (a zero leakage-area sum, as in the
Ssb = -1, Stb = 1 instance, also fails, by a division error); on every
other input it returns a value, with the derived x = (Ssb+Stb)/Sm silently
clamped to the fitted maximum 0.743614 before the spline lookup and the
result clamped above by 1.0. Holds for an arbitrary spline function. -/
theorem baffle_leakage_Bell_validation (spline : ℚ → ℚ → ℚ) (Ssb Stb Sm : ℚ)
    (hSm : Sm ≠ 0) :
    (baffle_leakage_Bell spline Ssb Stb Sm = none ↔
      (Ssb + Stb = 0 ∨ Ssb / (Ssb + Stb) < 0 ∨ 1 < Ssb / (Ssb + Stb))) ∧
    (Ssb + Stb ≠ 0 → 0 ≤ Ssb / (Ssb + Stb) → Ssb / (Ssb + Stb) ≤ 1 →
      baffle_leakage_Bell spline Ssb Stb Sm =
        some (min (spline (min ((Ssb + Stb) / Sm) Bell_baffle_leakage_x_max)
          (Ssb / (Ssb + Stb))) 1)) := by
  have hclamp : (if (Ssb + Stb) / Sm > Bell_baffle_leakage_x_max
        then Bell_baffle_leakage_x_max else (Ssb + Stb) / Sm) =
      min ((Ssb + Stb) / Sm) Bell_baffle_leakage_x_max := by
    split_ifs with h
    · exact (min_eq_right h.le).symm
    · exact (min_eq_left (not_lt.mp h)).symm
  simp only [baffle_leakage_Bell, if_neg hSm, hclamp]
  by_cases h0 : Ssb + Stb = 0
  · simp only [if_pos h0]
    exact ⟨⟨fun _ => Or.inl h0, fun _ => True.intro⟩, fun h0' _ _ => absurd h0 h0'⟩
  · simp only [if_neg h0]
    by_cases hy : Ssb / (Ssb + Stb) > 1 ∨ Ssb / (Ssb + Stb) < 0
    · simp only [if_pos hy]
      refine ⟨⟨fun _ => ?_, fun _ => True.intro⟩, fun _ hy0 hy1 => ?_⟩
      · rcases hy with h | h
        · exact Or.inr (Or.inr h)
        · exact Or.inr (Or.inl h)
      · rcases hy with h | h
        · exact absurd hy1 (not_le.mpr h)
        · exact absurd hy0 (not_le.mpr h)
    · simp only [if_neg hy]
      push_neg at hy
      refine ⟨⟨fun hsome => ?_, fun hcond => ?_⟩, fun _ _ _ => True.intro⟩
      · exact Option.noConfusion hsome
      · rcases hcond with h | h | h
        · exact absurd h h0
        · exact absurd h (not_lt.mpr hy.2)
        · exact absurd h (not_lt.mpr hy.1)

/-- Witness for C3 at the instance named by the claim: Ssb = -1, Stb = 1
(with Sm = 8) fails with an error rather than returning a value. -/
theorem baffle_leakage_Bell_validation_witness :
    baffle_leakage_Bell (fun _ _ => 0) (-1) 1 8 = none :=
  (baffle_leakage_Bell_validation (fun _ _ => 0) (-1) 1 8
    (by norm_num)).1.mpr (Or.inl (by norm_num))

/-- C4: on every input on which they return a value, baffle_leakage_Bell
and bundle_bypassing_Bell never return a value strictly greater than 1.0:
each spline result is clamped to an upper bound of 1.0 before being
returned. Holds for arbitrary spline functions. -/
theorem bell_clamped_factors_le_one (spl splLow splHigh : ℚ → ℚ → ℚ)
    (Ssb Stb Sm baf : ℚ) (ss cr : ℤ) (lam : Bool) (v w : ℚ) :
    (baffle_leakage_Bell spl Ssb Stb Sm = some v → v ≤ 1) ∧
    (bundle_bypassing_Bell splLow splHigh baf ss cr lam = some w → w ≤ 1) := by
  constructor
  · intro h
    simp only [baffle_leakage_Bell] at h
    split_ifs at h
    all_goals
      injection h with h'
      exact h'.symm.trans_le (min_le_right _ _)
  · intro h
    simp only [bundle_bypassing_Bell] at h
    split_ifs at h
    all_goals
      injection h with h'
      exact h'.symm.trans_le (min_le_right _ _)

/-- Witness for C4: with splines constantly 2, both functions return
exactly the clamped value 1 on the documented example inputs. -/
theorem bell_clamped_factors_le_one_witness : (1 : ℚ) ≤ 1 ∧ (1 : ℚ) ≤ 1 :=
  ⟨(bell_clamped_factors_le_one (fun _ _ => 2) (fun _ _ => 2) (fun _ _ => 2)
      1 3 8 (1 / 2) 5 25 false 1 1).1 (by with_unfolding_all decide),
   (bell_clamped_factors_le_one (fun _ _ => 2) (fun _ _ => 2) (fun _ _ => 2)
      1 3 8 (1 / 2) 5 25 false 1 1).2 (by with_unfolding_all decide)⟩

set_option maxRecDepth 8000
set_option maxHeartbeats 1600000

/-- C5: Zukauskas_tube_row_correction returns exactly 1.0 for every row
count of at least 20, for every arrangement and Reynolds number; and as the
row count increases from 1 toward 20 the factor is monotonically
non-decreasing, for each of the three tables (staggered low-Re, staggered
high-Re, inline). -/
theorem zukauskas_row_correction_saturation_and_monotone :
    (∀ N : ℤ, 20 ≤ N → ∀ (st : Bool) (Re : ℚ),
      Zukauskas_tube_row_correction N st Re = 1) ∧
    (∀ N : ℤ, 1 ≤ N → N ≤ 19 → ∀ (st : Bool) (Re : ℚ),
      Zukauskas_tube_row_correction N st Re ≤
        Zukauskas_tube_row_correction (N + 1) st Re) := by
  constructor
  · intro N hN st Re
    have h1 : ¬ N < 1 := by omega
    have h2 : ¬ N ≤ 19 := by omega
    cases st <;> simp [Zukauskas_tube_row_correction, h1, h2]
  · intro N h1 h19 st Re
    cases st
    · have e1 : Zukauskas_tube_row_correction N false Re =
          Zukauskas_tube_row_correction N false 0 := rfl
      have e2 : Zukauskas_tube_row_correction (N + 1) false Re =
          Zukauskas_tube_row_correction (N + 1) false 0 := rfl
      rw [e1, e2]
      interval_cases N <;> norm_num [Zukauskas_tube_row_correction,
        Zukauskas_Czs_inline] <;> with_unfolding_all decide
    · by_cases hRe : Re < 1000
      · have e1 : Zukauskas_tube_row_correction N true Re =
            Zukauskas_tube_row_correction N true 0 := by
          simp only [Zukauskas_tube_row_correction]
          rw [if_pos hRe, if_pos (show (0 : ℚ) < 1000 by norm_num)]
        have e2 : Zukauskas_tube_row_correction (N + 1) true Re =
            Zukauskas_tube_row_correction (N + 1) true 0 := by
          simp only [Zukauskas_tube_row_correction]
          rw [if_pos hRe, if_pos (show (0 : ℚ) < 1000 by norm_num)]
        rw [e1, e2]
        interval_cases N <;> norm_num [Zukauskas_tube_row_correction,
          Zukauskas_Czs_low_Re_staggered] <;> with_unfolding_all decide
      · have e1 : Zukauskas_tube_row_correction N true Re =
            Zukauskas_tube_row_correction N true 1000 := by
          simp only [Zukauskas_tube_row_correction]
          rw [if_neg hRe, if_neg (show ¬ (1000 : ℚ) < 1000 by norm_num)]
        have e2 : Zukauskas_tube_row_correction (N + 1) true Re =
            Zukauskas_tube_row_correction (N + 1) true 1000 := by
          simp only [Zukauskas_tube_row_correction]
          rw [if_neg hRe, if_neg (show ¬ (1000 : ℚ) < 1000 by norm_num)]
        rw [e1, e2]
        interval_cases N <;> norm_num [Zukauskas_tube_row_correction,
          Zukauskas_Czs_high_Re_staggered] <;> with_unfolding_all decide

/-- Witness for C5: 25 rows give exactly 1, and the staggered high-Re
factor does not decrease from 4 to 5 rows. -/
theorem zukauskas_row_correction_witness :
    Zukauskas_tube_row_correction 25 true 10000 = 1 ∧
    Zukauskas_tube_row_correction 4 true 10000 ≤
      Zukauskas_tube_row_correction 5 true 10000 :=
  ⟨(zukauskas_row_correction_saturation_and_monotone).1 25 (by omega) true 10000,
   (zukauskas_row_correction_saturation_and_monotone).2 4 (by omega) (by omega)
     true 10000⟩

/-- C6: with the method name Hewitt, ESDU_tube_row_correction returns
exactly 1.0 for every row count of at least 10; for row counts 3 through 9
it returns the table entry at offset tube_rows - 3 of the arrangement
table; and for every row count of at most 2 it returns the first table
entry (the 3-row value: 0.8593 staggered, 0.8479 inline) without error. -/
theorem esdu_hewitt_row_correction (N : ℤ) (st : Bool) (Re : ℚ) :
    (10 ≤ N → ESDU_tube_row_correction N st Re ("Hewitt") = some 1) ∧
    (3 ≤ N → N ≤ 9 → ESDU_tube_row_correction N st Re ("Hewitt") =
      some ((if st then ESDU_73031_F2_staggered else ESDU_73031_F2_inline).getD
        (N - 3).toNat 0)) ∧
    (N ≤ 2 → ESDU_tube_row_correction N st Re ("Hewitt") =
      some (if st then (0.8593 : ℚ) else 0.8479)) := by
  refine ⟨fun h10 => ?_, fun h3 h9 => ?_, fun h2 => ?_⟩
  · have h2 : ¬ N ≤ 2 := by omega
    cases st <;> simp [ESDU_tube_row_correction, h2, h10]
  · have h2 : ¬ N ≤ 2 := by omega
    have h10 : ¬ 10 ≤ N := by omega
    cases st <;> simp only [ESDU_tube_row_correction, if_pos rfl, if_neg h2,
      if_neg h10, if_true, if_false, Bool.false_eq_true, ite_true, ite_false] <;>
      interval_cases N <;> norm_num [ESDU_73031_F2_staggered,
        ESDU_73031_F2_inline]
  · cases st <;> norm_num [ESDU_tube_row_correction, h2,
      ESDU_73031_F2_staggered, ESDU_73031_F2_inline]

/-- Witness for C6 at 12 rows (factor 1), 4 staggered rows (table entry
0.8984) and 1 inline row (first entry 0.8479). -/
theorem esdu_hewitt_row_correction_witness :
    ESDU_tube_row_correction 12 true 3000 ("Hewitt") = some 1 ∧
    ESDU_tube_row_correction 4 true 3000 ("Hewitt") = some 0.8984 ∧
    ESDU_tube_row_correction 1 false 3000 ("Hewitt") = some 0.8479 :=
  ⟨(esdu_hewitt_row_correction 12 true 3000).1 (by omega),
   ((esdu_hewitt_row_correction 4 true 3000).2.1 (by omega) (by omega)).trans
     (by norm_num [ESDU_73031_F2_staggered]),
   ((esdu_hewitt_row_correction 1 false 3000).2.2 (by omega)).trans
     (by norm_num)⟩

/-- C7: Nu_Zukauskas_Bejan at Re = 1e4, Pr = 7, 10 tube rows and equal
pitches 0.05 takes the aligned branch with c = 0.27 and m = 0.63, applies
Pr^0.36 with no wall correction, multiplies by the inline 10-row
correction 0.9766, and reproduces the reference value 175.9202277 within
1e-6 relative tolerance. -/
theorem nu_zukauskas_bejan_reference_value :
    Zukauskas_tube_row_correction 10 false 10000 = 0.9766 ∧
    |Nu_Zukauskas_Bejan 10000 7 10 (5 / 100) (5 / 100) none - 175.9202277| ≤
      1e-6 * 175.9202277 := by
  have hCn : Zukauskas_tube_row_correction 10 false 10000 = 0.9766 := by
    norm_num [Zukauskas_tube_row_correction, Zukauskas_Czs_inline]
    rfl
  refine ⟨hCn, ?_⟩
  have hred : Nu_Zukauskas_Bejan 10000 7 10 (5 / 100) (5 / 100) none =
      0.27 * (10000 : ℝ) ^ (0.63 : ℝ) * (7 : ℝ) ^ (0.36 : ℝ) * 1 *
        (0.9766 : ℝ) := by
    norm_num [Nu_Zukauskas_Bejan, hCn]
  rw [hred]
  have h1e : (10000 : ℝ) = (10 : ℝ) ^ (4 : ℕ) := by norm_num
  have hA_eq : (10000 : ℝ) ^ (0.63 : ℝ) = (10 : ℝ) ^ (2.52 : ℝ) := by
    rw [h1e, ← Real.rpow_natCast (10 : ℝ) 4,
      ← Real.rpow_mul (by norm_num : (0 : ℝ) ≤ 10)]
    norm_num
  rw [hA_eq]
  have hA_pow : ((10 : ℝ) ^ (2.52 : ℝ)) ^ (25 : ℕ) = (10 : ℝ) ^ (63 : ℕ) := by
    rw [← Real.rpow_natCast ((10 : ℝ) ^ (2.52 : ℝ)) 25,
      ← Real.rpow_mul (by norm_num : (0 : ℝ) ≤ 10),
      ← Real.rpow_natCast (10 : ℝ) 63]
    norm_num
  have hA_pos : (0 : ℝ) < (10 : ℝ) ^ (2.52 : ℝ) :=
    Real.rpow_pos_of_pos (by norm_num) _
  have hA_lo : (331.1311214 : ℝ) ≤ (10 : ℝ) ^ (2.52 : ℝ) := by
    refine le_of_pow_le_pow_left₀ (by norm_num : (25 : ℕ) ≠ 0) hA_pos.le ?_
    rw [hA_pow]
    norm_num
  have hA_hi : (10 : ℝ) ^ (2.52 : ℝ) ≤ 331.1311215 := by
    refine le_of_pow_le_pow_left₀ (by norm_num : (25 : ℕ) ≠ 0) (by norm_num) ?_
    rw [hA_pow]
    norm_num
  have hB_pow : ((7 : ℝ) ^ (0.36 : ℝ)) ^ (25 : ℕ) = (7 : ℝ) ^ (9 : ℕ) := by
    rw [← Real.rpow_natCast ((7 : ℝ) ^ (0.36 : ℝ)) 25,
      ← Real.rpow_mul (by norm_num : (0 : ℝ) ≤ 7),
      ← Real.rpow_natCast (7 : ℝ) 9]
    norm_num
  have hB_pos : (0 : ℝ) < (7 : ℝ) ^ (0.36 : ℝ) :=
    Real.rpow_pos_of_pos (by norm_num) _
  have hB_lo : (2.0148155 : ℝ) ≤ (7 : ℝ) ^ (0.36 : ℝ) := by
    refine le_of_pow_le_pow_left₀ (by norm_num : (25 : ℕ) ≠ 0) hB_pos.le ?_
    rw [hB_pow]
    norm_num
  have hB_hi : (7 : ℝ) ^ (0.36 : ℝ) ≤ 2.0148156 := by
    refine le_of_pow_le_pow_left₀ (by norm_num : (25 : ℕ) ≠ 0) (by norm_num) ?_
    rw [hB_pow]
    norm_num
  have hABlo : (331.1311214 : ℝ) * 2.0148155 ≤
      (10 : ℝ) ^ (2.52 : ℝ) * ((7 : ℝ) ^ (0.36 : ℝ)) :=
    mul_le_mul hA_lo hB_lo (by norm_num) hA_pos.le
  have hABhi : (10 : ℝ) ^ (2.52 : ℝ) * ((7 : ℝ) ^ (0.36 : ℝ)) ≤
      331.1311215 * 2.0148156 :=
    mul_le_mul hA_hi hB_hi hB_pos.le (by norm_num)
  rw [abs_le]
  constructor <;> nlinarith [hABlo, hABhi]

/-- C8: dP_Kern applies the optional wall-viscosity correction
multiplicatively: multiplying the corrected result by (mu/mu_w)^0.14
recovers the result of the same call without mu_w, for every nonzero mu
and mu_w and an arbitrary friction-factor spline; without mu_w the
returned expression carries no viscosity-ratio factor. -/
theorem dP_Kern_wall_viscosity_multiplicative (Kf : ℝ → ℝ)
    (m rho mu DShell LSpacing pitch Do NBaffles w : ℝ)
    (hmu : mu ≠ 0) (hw : w ≠ 0) :
    dP_Kern Kf m rho mu DShell LSpacing pitch Do NBaffles (some w) *
        (mu / w) ^ (0.14 : ℝ) =
      dP_Kern Kf m rho mu DShell LSpacing pitch Do NBaffles none := by
  have hratio : mu / w ≠ 0 := div_ne_zero hmu hw
  have hr : (mu / w) ^ (0.14 : ℝ) ≠ 0 := by
    rcases hratio.lt_or_lt with hneg | hpos
    · rw [Real.rpow_def_of_neg hneg]
      refine mul_ne_zero (Real.exp_ne_zero _) (ne_of_gt ?_)
      refine Real.cos_pos_of_mem_Ioo ⟨?_, ?_⟩
      · nlinarith [Real.pi_pos]
      · nlinarith [Real.pi_pos]
    · exact ne_of_gt (Real.rpow_pos_of_pos hpos _)
  simp only [dP_Kern, if_neg hw]
  rw [div_mul_eq_mul_div, mul_div_mul_right _ _ hr]

/-- Witness for C8 at unit inputs with a constant friction-factor
function. -/
theorem dP_Kern_wall_viscosity_multiplicative_witness :
    dP_Kern (fun _ => 0) 1 1 1 1 1 1 1 1 (some 1) * ((1 : ℝ) / 1) ^ (0.14 : ℝ) =
      dP_Kern (fun _ => 0) 1 1 1 1 1 1 1 1 none :=
  dP_Kern_wall_viscosity_multiplicative (fun _ => 0) 1 1 1 1 1 1 1 1 1
    one_ne_zero one_ne_zero
